import Mathlib

/-!
Verification of the `next-identity/oidc-python` OIDC relying-party core.

The Python source is shallowly embedded: strings that Python manipulates
byte-wise (query-string values, token bytes, JSON bodies) are `List Nat`
(each element one byte, `< 256`); strings manipulated character-wise
(URLs, base64 text) are `List Char`.  Network calls are passed in as
explicit transport results.  Definitions mirror
`src/next_identity_oidc/client.py`, `flask_integration.py` and
`fastapi_integration.py`; models of Python standard-library routines
(`urllib.parse.urlencode`/`quote_plus`, `str.split`, `base64.b64decode`
a.k.a. `binascii.a2b_base64` in non-strict mode, `json.loads`) are noted
as such in their doc comments.
-/

/-- Bytes of an ASCII string literal (used for fixed parameter names). -/
def strBytes (s : String) : List Nat := s.toList.map Char.toNat

/-- Model of `urllib.parse.quote_plus` safe set: alphanumerics and `_.-~`
are emitted verbatim (Python's `_ALWAYS_SAFE`). -/
def isSafeByte (b : Nat) : Bool :=
  (48 ≤ b && b ≤ 57) || (65 ≤ b && b ≤ 90) || (97 ≤ b && b ≤ 122) ||
    b == 45 || b == 46 || b == 95 || b == 126

/-- Uppercase hexadecimal digit, as emitted by `urllib.parse.quote`. -/
def hexDigitChar (n : Nat) : Char := "0123456789ABCDEF".toList.getD n '?'

/-- Model of `urllib.parse.quote_plus` on a single byte: safe bytes pass
through, a space becomes `+`, anything else becomes `%XX`. -/
def quotePlusByte (b : Nat) : List Char :=
  if isSafeByte b then [Char.ofNat b]
  else if b == 32 then ['+']
  else ['%', hexDigitChar (b / 16), hexDigitChar (b % 16)]

/-- Model of `urllib.parse.quote_plus` on a byte string. -/
def quotePlus (bs : List Nat) : List Char := (bs.map quotePlusByte).flatten

/-- Model of `str.join`: `joinSep sep [a, b, c] = a ++ sep :: b ++ sep :: c`. -/
def joinSep (sep : Char) : List (List Char) → List Char
  | [] => []
  | [x] => x
  | x :: xs => x ++ sep :: joinSep sep xs

/-- Model of `urllib.parse.urlencode` over an insertion-ordered mapping:
each pair becomes `quote_plus(key)=quote_plus(value)`, joined with `&`. -/
def urlencode (params : List (List Nat × List Nat)) : List Char :=
  joinSep '&' (params.map fun p => quotePlus p.1 ++ '=' :: quotePlus p.2)

/-- Model of Python `str.split(sep)` for a one-character separator
(as in `id_token.split('.')`). -/
def splitOnChar (sep : Char) : List Char → List (List Char)
  | [] => [[]]
  | c :: rest =>
    if c = sep then [] :: splitOnChar sep rest
    else
      match splitOnChar sep rest with
      | s :: ss => (c :: s) :: ss
      | [] => [[c]]

/-- Split at the first occurrence of `sep` (as in `str.partition`); if
`sep` does not occur the whole input is the first component. -/
def splitFirstChar (sep : Char) : List Char → List Char × List Char
  | [] => ([], [])
  | c :: rest =>
    if c = sep then ([], rest)
    else
      let p := splitFirstChar sep rest
      (c :: p.1, p.2)

/-- The query-string component of a URL: everything after the first `?`. -/
def queryOf (url : List Char) : List Char := (splitFirstChar '?' url).2

/-- Value of a hexadecimal digit character (upper or lower case). -/
def hexVal (c : Char) : Option Nat :=
  if 48 ≤ c.toNat && c.toNat ≤ 57 then some (c.toNat - 48)
  else if 65 ≤ c.toNat && c.toNat ≤ 70 then some (c.toNat - 55)
  else if 97 ≤ c.toNat && c.toNat ≤ 102 then some (c.toNat - 87)
  else none

/-- Model of `urllib.parse.unquote_plus`: `+` becomes a space, `%XX`
becomes the byte `XX`, other characters become their own byte. -/
def unquotePlus : List Char → List Nat
  | [] => []
  | '+' :: rest => 32 :: unquotePlus rest
  | '%' :: h1 :: h2 :: rest2 =>
    match hexVal h1, hexVal h2 with
    | some a, some b => (a * 16 + b) :: unquotePlus rest2
    | _, _ => 37 :: unquotePlus (h1 :: h2 :: rest2)
  | c :: rest => c.toNat :: unquotePlus rest

/-- Model of `urllib.parse.parse_qsl`: split the query string on `&`,
drop empty chunks, split each chunk at its first `=`, unquote both
sides. -/
def parseQS (q : List Char) : List (List Nat × List Nat) :=
  ((splitOnChar '&' q).filter fun piece => !piece.isEmpty).map fun piece =>
    let p := splitFirstChar '=' piece
    (unquotePlus p.1, unquotePlus p.2)

/-- JSON values, as produced by Python `json.loads` (strings are byte
lists; numbers restricted to integers — no float in any input the
verified properties touch). -/
inductive Json where
  | null : Json
  | bool (b : Bool) : Json
  | num (n : Int) : Json
  | str (s : List Nat) : Json
  | arr (elems : List Json) : Json
  | obj (fields : List (List Nat × Json)) : Json

/-- JSON whitespace skipping (space, tab, LF, CR). -/
def skipWs : List Nat → List Nat
  | b :: rest =>
    if b == 32 || b == 9 || b == 10 || b == 13 then skipWs rest else b :: rest
  | [] => []

/-- Byte denoted by a single-character JSON escape (`\" \\ \/ \b \f \n \r \t`). -/
def escByte (e : Nat) : Option Nat :=
  if e == 34 then some 34
  else if e == 92 then some 92
  else if e == 47 then some 47
  else if e == 98 then some 8
  else if e == 102 then some 12
  else if e == 110 then some 10
  else if e == 114 then some 13
  else if e == 116 then some 9
  else none

/-- Parse a JSON string body (after the opening quote) up to the closing
quote; `\uXXXX` escapes are not modelled. -/
def parseStrBody : Nat → List Nat → Option (List Nat × List Nat)
  | 0, _ => none
  | _, [] => none
  | fuel + 1, b :: rest =>
    if b == 34 then some ([], rest)
    else if b == 92 then
      match rest with
      | e :: rest2 =>
        match escByte e with
        | some x => (parseStrBody fuel rest2).map fun p => (x :: p.1, p.2)
        | none => none
      | [] => none
    else if b < 32 then none
    else (parseStrBody fuel rest).map fun p => (b :: p.1, p.2)

/-- Is the byte an ASCII decimal digit? -/
def isDigitByte (b : Nat) : Bool := 48 ≤ b && b ≤ 57

/-- Digits of a decimal literal folded into a natural number. -/
def digitsToNat (ds : List Nat) : Nat := ds.foldl (fun acc d => acc * 10 + (d - 48)) 0

/-- Parse an integer JSON number (optional minus, one or more digits);
fails on a fraction or exponent, which the model does not cover. -/
def parseNum (s : List Nat) : Option (Json × List Nat) :=
  let neg := match s with | 45 :: _ => true | _ => false
  let s1 := if neg then s.tail else s
  let ds := s1.takeWhile isDigitByte
  let rest := s1.dropWhile isDigitByte
  if ds.isEmpty then none
  else
    match rest with
    | b :: _ => if b == 46 || b == 101 || b == 69 then none
                else some (.num (if neg then -(digitsToNat ds : Int) else digitsToNat ds), rest)
    | [] => some (.num (if neg then -(digitsToNat ds : Int) else digitsToNat ds), rest)

mutual

/-- Recursive-descent model of Python `json.loads` value parsing; returns
the value and the unconsumed rest. -/
def parseValue : Nat → List Nat → Option (Json × List Nat)
  | 0, _ => none
  | fuel + 1, s =>
    match skipWs s with
    | 110 :: 117 :: 108 :: 108 :: r => some (.null, r)
    | 116 :: 114 :: 117 :: 101 :: r => some (.bool true, r)
    | 102 :: 97 :: 108 :: 115 :: 101 :: r => some (.bool false, r)
    | 34 :: r => (parseStrBody (r.length + 1) r).map fun p => (.str p.1, p.2)
    | 91 :: r =>
      (match skipWs r with
       | 93 :: r2 => some (.arr [], r2)
       | _ => (parseElems fuel r).map fun p => (.arr p.1, p.2))
    | 123 :: r =>
      (match skipWs r with
       | 125 :: r2 => some (.obj [], r2)
       | _ => (parseFields fuel r).map fun p => (.obj p.1, p.2))
    | s1 => parseNum s1

/-- Comma-separated array elements, up to the closing bracket. -/
def parseElems : Nat → List Nat → Option (List Json × List Nat)
  | 0, _ => none
  | fuel + 1, s =>
    match parseValue fuel s with
    | none => none
    | some (v, r) =>
      match skipWs r with
      | 44 :: r2 => (parseElems fuel r2).map fun p => (v :: p.1, p.2)
      | 93 :: r2 => some ([v], r2)
      | _ => none

/-- Comma-separated `"key": value` object members, up to the closing brace. -/
def parseFields : Nat → List Nat → Option (List (List Nat × Json) × List Nat)
  | 0, _ => none
  | fuel + 1, s =>
    match skipWs s with
    | 34 :: r =>
      (match parseStrBody (r.length + 1) r with
       | none => none
       | some (key, r2) =>
         match skipWs r2 with
         | 58 :: r3 =>
           (match parseValue fuel r3 with
            | none => none
            | some (v, r4) =>
              match skipWs r4 with
              | 44 :: r5 => (parseFields fuel r5).map fun p => ((key, v) :: p.1, p.2)
              | 125 :: r5 => some ([(key, v)], r5)
              | _ => none)
         | _ => none)
    | _ => none

end

/-- Model of Python `json.loads` on a byte string: parse one value and
require only whitespace to remain. -/
def jsonLoads (bs : List Nat) : Option Json :=
  match parseValue (2 * bs.length + 4) bs with
  | some (j, rest) => if (skipWs rest).isEmpty then some j else none
  | none => none

/-- The base64url alphabet (RFC 4648 §5), used to characterise a valid
base64url-encoded middle JWT segment as the spec describes it. -/
def b64urlChar (v : Nat) : Char :=
  "ABCDEFGHIJKLMNOPQRSTUVWXYZabcdefghijklmnopqrstuvwxyz0123456789-_".toList.getD v '?'

/-- Standard (unpadded) base64url encoding of a byte string: 6-bit groups
of each 3-byte chunk, a final 1- or 2-byte chunk encoded to 2 or 3
characters. -/
def b64urlEncode : List Nat → List Char
  | b1 :: b2 :: b3 :: rest =>
    b64urlChar (b1 / 4) :: b64urlChar ((b1 % 4) * 16 + b2 / 16) ::
      b64urlChar ((b2 % 16) * 4 + b3 / 64) :: b64urlChar (b3 % 64) :: b64urlEncode rest
  | [b1, b2] => [b64urlChar (b1 / 4), b64urlChar ((b1 % 4) * 16 + b2 / 16), b64urlChar ((b2 % 16) * 4)]
  | [b1] => [b64urlChar (b1 / 4), b64urlChar ((b1 % 4) * 16)]
  | [] => []

/-- The standard base64 alphabet, the one `base64.b64decode` reads. -/
def b64StdAlphabet : List Char :=
  "ABCDEFGHIJKLMNOPQRSTUVWXYZabcdefghijklmnopqrstuvwxyz0123456789+/".toList

/-- Decode table of `binascii.a2b_base64`: position of a character in the
standard alphabet. -/
def b64StdVal (c : Char) : Option Nat := List.findIdx? (fun x => x = c) b64StdAlphabet

/-- The `str.translate` table used in `validate_id_token`: `-` to `+`
and `_` to `/`. -/
def pyTranslateChar (c : Char) : Char :=
  if c = '-' then '+' else if c = '_' then '/' else c

/-- Model of CPython `binascii.a2b_base64` in non-strict mode (what
`base64.b64decode(..., validate=False)` runs): a quad-position state
machine that ignores characters outside the alphabet, ends the input at
a completed pad sequence, and tolerates excess padding after a complete
quad.  State: remaining input, quad position, held bits, pads seen,
output bytes. -/
def a2b_base64 : List Char → Nat → Nat → Nat → List Nat → Except String (List Nat)
  | [], quadPos, _, _, out =>
    if quadPos = 0 then .ok out else .error "Invalid base64-encoded string"
  | c :: cs, quadPos, leftchar, pads, out =>
    if c = '=' then
      if 2 ≤ quadPos then
        if 4 ≤ quadPos + (pads + 1) then .ok out
        else a2b_base64 cs quadPos leftchar (pads + 1) out
      else a2b_base64 cs quadPos leftchar pads out
    else
      match b64StdVal c with
      | none => a2b_base64 cs quadPos leftchar pads out
      | some v =>
        match quadPos with
        | 0 => a2b_base64 cs 1 v 0 out
        | 1 => a2b_base64 cs 2 (v % 16) 0 (out ++ [leftchar * 4 + v / 16])
        | 2 => a2b_base64 cs 3 (v % 4) 0 (out ++ [leftchar * 16 + v / 4])
        | _ => a2b_base64 cs 0 0 0 (out ++ [leftchar * 64 + v])

/-- Model of `base64.b64decode` as called by `validate_id_token`. -/
def pyB64decode (s : List Char) : Except String (List Nat) := a2b_base64 s 0 0 0 []

/-- The loaded provider configuration (`self.config`), with the fields
the client reads: `issuer` and the optional `end_session_endpoint`. -/
structure ProviderConfig where
  issuer : List Char
  end_session_endpoint : Option (List Char)

/-- The client construction arguments that `get_auth_url` serialises
(`client_id`, `redirect_uri`, `scope`), as byte strings. -/
structure ClientConfig where
  client_id : List Nat
  redirect_uri : List Nat
  scope : List Nat

/-- A `if value: params[name] = value` step: the pair is appended only
when the optional value is both present and non-empty (Python
truthiness). -/
def truthyParam (name : String) (v : Option (List Nat)) : List (List Nat × List Nat) :=
  match v with
  | some s => if s.isEmpty then [] else [(strBytes name, s)]
  | none => []

/-- `NextIdentityClient.get_auth_url` (client.py:52-85): issuer plus the
purpose path, `?`, and the urlencoded parameters — always `client_id`,
`redirect_uri`, `response_type=code`, `scope`, then `state` and `nonce`
only if truthy. -/
def get_auth_url (pc : ProviderConfig) (cc : ClientConfig)
    (state nonce : Option (List Nat)) (path : List Char) : List Char :=
  let params :=
    [(strBytes "client_id", cc.client_id),
     (strBytes "redirect_uri", cc.redirect_uri),
     (strBytes "response_type", strBytes "code"),
     (strBytes "scope", cc.scope)]
    ++ truthyParam "state" state ++ truthyParam "nonce" nonce
  pc.issuer ++ path ++ '?' :: urlencode params

/-- `NextIdentityClient.get_login_url` (client.py:87-89). -/
def get_login_url (pc : ProviderConfig) (cc : ClientConfig)
    (state nonce : Option (List Nat)) : List Char :=
  get_auth_url pc cc state nonce "/authorize".toList

/-- `NextIdentityClient.get_logout_url` (client.py:154-181): error if the
config has no `end_session_endpoint`; otherwise the endpoint with
`id_token_hint` and `post_logout_redirect_uri` appended only if truthy,
and no `?` at all when both are absent. -/
def get_logout_url (pc : ProviderConfig) (id_token_hint : Option (List Nat))
    (post_logout_redirect_uri : Option (List Nat)) : Except String (List Char) :=
  match pc.end_session_endpoint with
  | none => .error "Logout endpoint not found in OIDC configuration"
  | some ep =>
    let params := truthyParam "id_token_hint" id_token_hint
      ++ truthyParam "post_logout_redirect_uri" post_logout_redirect_uri
    if params.isEmpty then .ok ep
    else .ok (ep ++ '?' :: urlencode params)

/-- One HTTP transport result: final status code and response body bytes. -/
structure HttpResponse where
  status : Nat
  body : List Nat

/-- `NextIdentityClient._fetch_config` (client.py:43-50) applied to one
transport result: `requests.get` then `raise_for_status` (which raises
exactly for statuses in [400, 600)) then `response.json()`; any raised
`requests.RequestException` (transport error, HTTP error, JSON decode
error) becomes the discovery failure. -/
def fetch_config (resp : Except String HttpResponse) : Except String Json :=
  match resp with
  | .error e => .error ("Failed to fetch OIDC configuration: " ++ e)
  | .ok r =>
    if 400 ≤ r.status ∧ r.status < 600 then
      .error "Failed to fetch OIDC configuration: HTTPError"
    else
      match jsonLoads r.body with
      | some j => .ok j
      | none => .error "Failed to fetch OIDC configuration: JSONDecodeError"

/-- `NextIdentityClient.validate_id_token` (client.py:183-212): split on
`.`, require exactly three parts, pad the middle part with `=` to the
next multiple of four (four `=` when already a multiple), translate
`-`/`_` to `+`/`/`, base64-decode, JSON-parse. -/
def validate_id_token (idToken : List Char) : Except String Json :=
  let parts := splitOnChar '.' idToken
  if parts.length ≠ 3 then .error "Invalid ID token format"
  else
    let payload := parts.getD 1 []
    let padded := payload ++ List.replicate (4 - payload.length % 4) '='
    match pyB64decode (padded.map pyTranslateChar) with
    | .error e => .error ("Failed to decode ID token: " ++ e)
    | .ok bytes =>
      match jsonLoads bytes with
      | some j => .ok j
      | none => .error "Failed to decode ID token: JSONDecodeError"

/-- The `AuthSessionRecord` dict written under the session auth key
(flask_integration.py:81-87, fastapi_integration.py:90-96).  An `Option`
field models presence of the dict key; the write path always includes
every key (with `None` values folded into the string options). -/
structure AuthRecord where
  access_token : Option (List Nat)
  id_token : Option (List Nat)
  refresh_token : Option (List Nat)
  expires_in : Option Int
  user_info : Option Json

/-- The per-browser session as the core uses it: the auth record slot
(under `session_auth_key`) and the transient `return_to` slot. -/
structure Session where
  auth : Option AuthRecord
  return_to : Option (List Char)

/-- `is_authenticated` (flask_integration.py:166-173,
fastapi_integration.py:179-190): the session auth key is present and the
record contains the `access_token` key. -/
def is_authenticated (s : Session) : Bool :=
  match s.auth with
  | none => false
  | some r => r.access_token.isSome

/-- The token-endpoint JSON body fields the callback reads. -/
structure TokenResponse where
  access_token : Option (List Nat)
  id_token : Option (List Nat)
  refresh_token : Option (List Nat)
  expires_in : Option Int

/-- Outcome of the callback route: a redirect or an error response
(Flask returns `(msg, 400)`, FastAPI raises `HTTPException(400)`). -/
inductive CallbackResult where
  | redirect (target : List Char) : CallbackResult
  | errorResponse (msg : String) : CallbackResult

/-- The `/auth/callback` route body (flask_integration.py:66-93,
fastapi_integration.py:77-102; both run the same flow): reject a missing
or empty `code`; exchange the code; read `tokens['access_token']` (a
`KeyError` if absent); fetch userinfo; only then write the session
record, pop `return_to` (default `/`) and redirect to it.  Any raised
error leaves the session untouched and surfaces a 400. -/
def auth_callback (code : Option (List Nat))
    (exchange : Except String TokenResponse)
    (userinfo : List Nat → Except String Json)
    (s : Session) : CallbackResult × Session :=
  if code = none ∨ code = some [] then (.errorResponse "Authorization code missing", s)
  else
    match exchange with
    | .error e => (.errorResponse ("Authentication error: " ++ e), s)
    | .ok tokens =>
      match tokens.access_token with
      | none => (.errorResponse "Authentication error: KeyError", s)
      | some tok =>
        match userinfo tok with
        | .error e => (.errorResponse ("Authentication error: " ++ e), s)
        | .ok ui =>
          let s1 : Session :=
            { s with auth := some { access_token := some tok, id_token := tokens.id_token,
                                    refresh_token := tokens.refresh_token,
                                    expires_in := tokens.expires_in, user_info := some ui } }
          let rt := s1.return_to.getD ['/']
          (.redirect rt, { s1 with return_to := none })

/-- Outcome of a guarded route: either control reaches the protected
handler, or a redirect (with its HTTP status) is returned instead. -/
inductive GuardOutcome where
  | handler : GuardOutcome
  | redirect (target : List Char) (statusCode : Nat) : GuardOutcome

/-- `NextIdentityFlask.login_required` (flask_integration.py:175-191):
if not authenticated, store `request.url` in `return_to` and redirect
(302) to the app's login view; otherwise run the wrapped handler. -/
def flask_login_required (loginUrl currentUrl : List Char) (s : Session) :
    GuardOutcome × Session :=
  if is_authenticated s then (.handler, s)
  else (.redirect loginUrl 302, { s with return_to := some currentUrl })

/-- The value the FastAPI `login_required` dependency resolves to: the
Python literal `True` when authenticated, or the `RedirectResponse`
object (target URL and status code) that the dependency *returns* when
not.  The dependency never raises. -/
inductive DependencyValue where
  | boolTrue : DependencyValue
  | redirectValue (target : List Char) (statusCode : Nat) : DependencyValue

/-- `NextIdentityFastAPI.login_required` dependency
(fastapi_integration.py:192-207): if not authenticated, store the
request URL in `return_to` and *return* (not raise)
`RedirectResponse(url="/login", 307)`; otherwise return `True`. -/
def fastapi_login_required (currentUrl : List Char) (s : Session) :
    DependencyValue × Session :=
  if is_authenticated s then (.boolTrue, s)
  else (.redirectValue "/login".toList 307, { s with return_to := some currentUrl })

/-- A FastAPI route guarded by the `login_required` dependency, under
FastAPI's dependency-resolution semantics: a dependency short-circuits
the route only by raising (for example `HTTPException`); a returned
value — even a `Response` object — is merely bound as the dependency's
resolved value and the route handler body runs regardless (as in
`examples/fastapi_app.py`, route `/protected`).  Since
`login_required` returns rather than raises, the handler is reached in
both branches; only the dependency's session write survives. -/
def fastapi_guarded_route (currentUrl : List Char) (s : Session) :
    GuardOutcome × Session :=
  (.handler, (fastapi_login_required currentUrl s).2)

/-- `NextIdentityFlask.logout` (flask_integration.py:131-152): pop the
auth record first, take its `id_token` (if any) as the logout hint,
resolve the post-logout URI (`url_for('index', _external=True)` when
`return_to` is `/`), then build the end-session URL — which raises after
the pop when the config lacks `end_session_endpoint`. -/
def flask_logout (pc : ProviderConfig) (indexUrl : List Nat)
    (return_to : List Nat) (s : Session) : Except String (List Char) × Session :=
  let auth_data := s.auth
  let s1 : Session := { s with auth := none }
  let id_token := match auth_data with
    | some r => r.id_token
    | none => none
  let post := if return_to = strBytes "/" then indexUrl else return_to
  (get_logout_url pc id_token (some post), s1)

lemma charOfNat_toNat (b : Nat) (h : b < 55296) : (Char.ofNat b).toNat = b := by
  have hv : Nat.isValidChar b := Or.inl h
  simp [Char.ofNat, Char.toNat, hv, Char.ofNatAux, UInt32.toNat, BitVec.toNat_ofNatLt]

lemma isSafeByte_facts (b : Nat) (h : isSafeByte b = true) :
    b < 256 ∧ b ≠ 43 ∧ b ≠ 37 ∧ b ≠ 32 := by
  simp only [isSafeByte, Bool.or_eq_true, Bool.and_eq_true, decide_eq_true_eq,
    beq_iff_eq] at h
  omega

lemma hexVal_hexDigitChar : ∀ n, n < 16 → hexVal (hexDigitChar n) = some n := by decide

lemma unquotePlus_cons (c : Char) (rest : List Char) (hplus : c ≠ '+') (hpct : c ≠ '%') :
    unquotePlus (c :: rest) = c.toNat :: unquotePlus rest := by
  rw [unquotePlus.eq_def]
  split
  · simp_all
  · simp_all
  · simp_all
  · rename_i h
    injection h with h1 h2
    subst h1; subst h2; rfl

lemma quotePlusByte_unquote (b : Nat) (hb : b < 256) (tail : List Char) :
    unquotePlus (quotePlusByte b ++ tail) = b :: unquotePlus tail := by
  by_cases hs : isSafeByte b
  · obtain ⟨h1, h43, h37, _⟩ := isSafeByte_facts b hs
    simp only [quotePlusByte, hs, if_true, List.cons_append, List.nil_append]
    rw [unquotePlus_cons, charOfNat_toNat b (by omega)]
    · intro h
      have := congrArg Char.toNat h
      rw [charOfNat_toNat b (by omega)] at this
      simp at this; omega
    · intro h
      have := congrArg Char.toNat h
      rw [charOfNat_toNat b (by omega)] at this
      simp at this; omega
  · by_cases h32 : b = 32
    · subst h32
      simp [quotePlusByte, hs]
      rfl
    · have hq : quotePlusByte b = ['%', hexDigitChar (b / 16), hexDigitChar (b % 16)] := by
        simp [quotePlusByte, hs, h32]
      rw [hq]
      show unquotePlus ('%' :: hexDigitChar (b / 16) :: hexDigitChar (b % 16) :: tail)
        = b :: unquotePlus tail
      rw [unquotePlus.eq_def]
      simp only [hexVal_hexDigitChar (b / 16) (by omega), hexVal_hexDigitChar (b % 16) (by omega)]
      congr 1
      omega

lemma quotePlus_unquote (bs : List Nat) (hb : ∀ b ∈ bs, b < 256) (tail : List Char) :
    unquotePlus (quotePlus bs ++ tail) = bs ++ unquotePlus tail := by
  induction bs with
  | nil => simp [quotePlus]
  | cons b rest ih =>
    have hb1 : b < 256 := hb b (List.mem_cons_self b rest)
    have hbr : ∀ x ∈ rest, x < 256 := fun x hx => hb x (List.mem_cons_of_mem b hx)
    simp only [quotePlus, List.map_cons, List.flatten_cons, List.append_assoc]
    rw [quotePlusByte_unquote b hb1]
    simp only [quotePlus] at ih
    rw [ih hbr]
    rfl

lemma quotePlus_unquote_nil (bs : List Nat) (hb : ∀ b ∈ bs, b < 256) :
    unquotePlus (quotePlus bs) = bs := by
  have h0 : unquotePlus ([] : List Char) = [] := rfl
  have h1 := quotePlus_unquote bs hb []
  simpa [h0] using h1

set_option maxRecDepth 4096 in
lemma quotePlusByte_chars : ∀ b, b < 256 →
    ((quotePlusByte b).all fun c => c != '&' && c != '=' && c != '?') = true := by
  decide

lemma quotePlus_no_sep (bs : List Nat) (hb : ∀ b ∈ bs, b < 256) :
    ∀ c ∈ quotePlus bs, c ≠ '&' ∧ c ≠ '=' ∧ c ≠ '?' := by
  intro c hc
  simp only [quotePlus, List.mem_flatten, List.mem_map] at hc
  obtain ⟨l, ⟨b, hbmem, rfl⟩, hcl⟩ := hc
  have hall := quotePlusByte_chars b (hb b hbmem)
  rw [List.all_eq_true] at hall
  have h2 := hall c hcl
  simp only [Bool.and_eq_true, bne_iff_ne] at h2
  exact ⟨h2.1.1, h2.1.2, h2.2⟩

lemma splitOnChar_of_no_sep (sep : Char) (a : List Char) (h : sep ∉ a) :
    splitOnChar sep a = [a] := by
  induction a with
  | nil => rfl
  | cons c rest ih =>
    have hc : c ≠ sep := fun hcc => h (hcc ▸ List.mem_cons_self c rest)
    have hrest : sep ∉ rest := fun hr => h (List.mem_cons_of_mem c hr)
    simp only [splitOnChar, if_neg hc, ih hrest]

lemma splitOnChar_append (sep : Char) (a rest : List Char) (h : sep ∉ a) :
    splitOnChar sep (a ++ sep :: rest) = a :: splitOnChar sep rest := by
  induction a with
  | nil => simp [splitOnChar]
  | cons c a' ih =>
    have hc : c ≠ sep := fun hcc => h (hcc ▸ List.mem_cons_self c a')
    have ha' : sep ∉ a' := fun hr => h (List.mem_cons_of_mem c hr)
    simp only [List.cons_append, splitOnChar, if_neg hc, List.append_eq, ih ha']

lemma splitFirstChar_append (sep : Char) (a b : List Char) (h : sep ∉ a) :
    splitFirstChar sep (a ++ sep :: b) = (a, b) := by
  induction a with
  | nil => simp [splitFirstChar]
  | cons c a' ih =>
    have hc : c ≠ sep := fun hcc => h (hcc ▸ List.mem_cons_self c a')
    have ha' : sep ∉ a' := fun hr => h (List.mem_cons_of_mem c hr)
    simp only [List.cons_append, splitFirstChar, if_neg hc, List.append_eq, ih ha']

lemma splitFirstChar_of_no_sep (sep : Char) (a : List Char) (h : sep ∉ a) :
    splitFirstChar sep a = (a, []) := by
  induction a with
  | nil => rfl
  | cons c a' ih =>
    have hc : c ≠ sep := fun hcc => h (hcc ▸ List.mem_cons_self c a')
    have ha' : sep ∉ a' := fun hr => h (List.mem_cons_of_mem c hr)
    simp only [splitFirstChar, if_neg hc, ih ha']

lemma splitOnChar_joinSep (sep : Char) (pieces : List (List Char))
    (h : ∀ p ∈ pieces, sep ∉ p ∧ p ≠ []) :
    (splitOnChar sep (joinSep sep pieces)).filter (fun piece => !piece.isEmpty) = pieces := by
  induction pieces with
  | nil => rfl
  | cons x xs ih =>
    obtain ⟨hx, hxne⟩ := h x (List.mem_cons_self x xs)
    have hxs : ∀ p ∈ xs, sep ∉ p ∧ p ≠ [] := fun p hp => h p (List.mem_cons_of_mem x hp)
    have hxe : (!x.isEmpty) = true := by
      cases x
      · exact absurd rfl hxne
      · rfl
    cases xs with
    | nil =>
      simp only [joinSep, splitOnChar_of_no_sep sep x hx, List.filter, hxe]
    | cons y ys =>
      have : joinSep sep (x :: y :: ys) = x ++ sep :: joinSep sep (y :: ys) := rfl
      rw [this, splitOnChar_append sep x _ hx, List.filter, hxe, ih hxs]

lemma urlencode_piece_no_amp (k v : List Nat)
    (hk : ∀ b ∈ k, b < 256) (hv : ∀ b ∈ v, b < 256) :
    '&' ∉ quotePlus k ++ '=' :: quotePlus v := by
  intro hmem
  rcases List.mem_append.mp hmem with h | h
  · exact (quotePlus_no_sep k hk '&' h).1 rfl
  · rcases List.mem_cons.mp h with h | h
    · exact absurd h.symm (by decide)
    · exact (quotePlus_no_sep v hv '&' h).1 rfl

lemma parseQS_urlencode (params : List (List Nat × List Nat))
    (h : ∀ p ∈ params, (∀ b ∈ p.1, b < 256) ∧ (∀ b ∈ p.2, b < 256)) :
    parseQS (urlencode params) = params := by
  unfold parseQS urlencode
  rw [splitOnChar_joinSep '&' _ (by
    intro piece hpiece
    rw [List.mem_map] at hpiece
    obtain ⟨p, hp, rfl⟩ := hpiece
    refine ⟨urlencode_piece_no_amp p.1 p.2 (h p hp).1 (h p hp).2, by simp⟩)]
  rw [List.map_map]
  have : ∀ p ∈ params,
      ((fun piece =>
          ((unquotePlus (splitFirstChar '=' piece).1, unquotePlus (splitFirstChar '=' piece).2)
            : List Nat × List Nat)) ∘
        fun p => quotePlus p.1 ++ '=' :: quotePlus p.2) p = p := by
    intro p hp
    obtain ⟨hk, hv⟩ := h p hp
    have hne : '=' ∉ quotePlus p.1 := fun hmem => (quotePlus_no_sep p.1 hk '=' hmem).2.1 rfl
    simp only [Function.comp_apply, splitFirstChar_append '=' _ _ hne]
    rw [quotePlus_unquote_nil p.1 hk, quotePlus_unquote_nil p.2 hv]
  rw [List.map_congr_left this]
  exact List.map_id params

set_option maxRecDepth 8192 in
lemma b64StdVal_translate_url : ∀ v, v < 64 →
    b64StdVal (pyTranslateChar (b64urlChar v)) = some v ∧
      pyTranslateChar (b64urlChar v) ≠ '=' := by
  decide

lemma a2b_nil (l p : Nat) (out : List Nat) : a2b_base64 [] 0 l p out = .ok out := rfl

lemma a2b_step0 (c : Char) (v : Nat) (hc : b64StdVal c = some v) (hne : c ≠ '=')
    (cs : List Char) (l p : Nat) (out : List Nat) :
    a2b_base64 (c :: cs) 0 l p out = a2b_base64 cs 1 v 0 out := by
  simp [a2b_base64, hne, hc]

lemma a2b_step1 (c : Char) (v : Nat) (hc : b64StdVal c = some v) (hne : c ≠ '=')
    (cs : List Char) (l p : Nat) (out : List Nat) :
    a2b_base64 (c :: cs) 1 l p out = a2b_base64 cs 2 (v % 16) 0 (out ++ [l * 4 + v / 16]) := by
  simp [a2b_base64, hne, hc]

lemma a2b_step2 (c : Char) (v : Nat) (hc : b64StdVal c = some v) (hne : c ≠ '=')
    (cs : List Char) (l p : Nat) (out : List Nat) :
    a2b_base64 (c :: cs) 2 l p out = a2b_base64 cs 3 (v % 4) 0 (out ++ [l * 16 + v / 4]) := by
  simp [a2b_base64, hne, hc]

lemma a2b_step3 (c : Char) (v : Nat) (hc : b64StdVal c = some v) (hne : c ≠ '=')
    (cs : List Char) (l p : Nat) (out : List Nat) :
    a2b_base64 (c :: cs) 3 l p out = a2b_base64 cs 0 0 0 (out ++ [l * 64 + v]) := by
  simp [a2b_base64, hne, hc]

lemma a2b_pad0 (cs : List Char) (l p : Nat) (out : List Nat) :
    a2b_base64 ('=' :: cs) 0 l p out = a2b_base64 cs 0 l p out := by
  simp [a2b_base64]

lemma a2b_pad2_0 (cs : List Char) (l : Nat) (out : List Nat) :
    a2b_base64 ('=' :: cs) 2 l 0 out = a2b_base64 cs 2 l 1 out := by
  simp [a2b_base64]

lemma a2b_pad2_1 (cs : List Char) (l : Nat) (out : List Nat) :
    a2b_base64 ('=' :: cs) 2 l 1 out = .ok out := by
  simp [a2b_base64]

lemma a2b_pad3_0 (cs : List Char) (l : Nat) (out : List Nat) :
    a2b_base64 ('=' :: cs) 3 l 0 out = .ok out := by
  simp [a2b_base64]

/-- Decoding, after the `-`/`_` to `+`/`/` translation and the `=`
padding that `validate_id_token` appends, inverts base64url encoding —
for every byte string, whatever its length modulo 3 (so also when the
encoded segment length is a multiple of four and four `=` are added). -/
lemma a2b_encode_pad (B : List Nat) (hB : ∀ b ∈ B, b < 256) :
    ∀ (out : List Nat) (l p : Nat),
      a2b_base64 ((b64urlEncode B).map pyTranslateChar
          ++ List.replicate (4 - (b64urlEncode B).length % 4) '=') 0 l p out
        = .ok (out ++ B) := by
  induction B using b64urlEncode.induct with
  | case1 b1 b2 b3 rest ih =>
    intro out l p
    have h1 : b1 < 256 := hB b1 (by simp)
    have h2 : b2 < 256 := hB b2 (by simp)
    have h3 : b3 < 256 := hB b3 (by simp)
    have hrest : ∀ b ∈ rest, b < 256 := fun b hb => hB b (by simp [hb])
    have e1 := b64StdVal_translate_url (b1 / 4) (by omega)
    have e2 := b64StdVal_translate_url ((b1 % 4) * 16 + b2 / 16) (by omega)
    have e3 := b64StdVal_translate_url ((b2 % 16) * 4 + b3 / 64) (by omega)
    have e4 := b64StdVal_translate_url (b3 % 64) (by omega)
    have hlen : (b64urlEncode (b1 :: b2 :: b3 :: rest)).length
        = 4 + (b64urlEncode rest).length := by
      simp [b64urlEncode]
      omega
    rw [hlen]
    have hmod : 4 - (4 + (b64urlEncode rest).length) % 4
        = 4 - (b64urlEncode rest).length % 4 := by omega
    rw [hmod]
    show a2b_base64 (pyTranslateChar (b64urlChar (b1 / 4)) ::
        pyTranslateChar (b64urlChar ((b1 % 4) * 16 + b2 / 16)) ::
        pyTranslateChar (b64urlChar ((b2 % 16) * 4 + b3 / 64)) ::
        pyTranslateChar (b64urlChar (b3 % 64)) ::
        ((b64urlEncode rest).map pyTranslateChar
          ++ List.replicate (4 - (b64urlEncode rest).length % 4) '=')) 0 l p out
      = .ok (out ++ b1 :: b2 :: b3 :: rest)
    rw [a2b_step0 _ _ e1.1 e1.2, a2b_step1 _ _ e2.1 e2.2, a2b_step2 _ _ e3.1 e3.2,
      a2b_step3 _ _ e4.1 e4.2]
    have o1 : b1 / 4 * 4 + ((b1 % 4) * 16 + b2 / 16) / 16 = b1 := by omega
    have o2 : ((b1 % 4) * 16 + b2 / 16) % 16 * 16 + ((b2 % 16) * 4 + b3 / 64) / 4 = b2 := by
      omega
    have o3 : ((b2 % 16) * 4 + b3 / 64) % 4 * 64 + b3 % 64 = b3 := by omega
    rw [o1, o2, o3, ih hrest]
    simp
  | case2 b1 b2 =>
    intro out l p
    have h1 : b1 < 256 := hB b1 (by simp)
    have h2 : b2 < 256 := hB b2 (by simp)
    have e1 := b64StdVal_translate_url (b1 / 4) (by omega)
    have e2 := b64StdVal_translate_url ((b1 % 4) * 16 + b2 / 16) (by omega)
    have e3 := b64StdVal_translate_url ((b2 % 16) * 4) (by omega)
    show a2b_base64 (pyTranslateChar (b64urlChar (b1 / 4)) ::
        pyTranslateChar (b64urlChar ((b1 % 4) * 16 + b2 / 16)) ::
        pyTranslateChar (b64urlChar ((b2 % 16) * 4)) :: ['=']) 0 l p out
      = .ok (out ++ [b1, b2])
    rw [a2b_step0 _ _ e1.1 e1.2, a2b_step1 _ _ e2.1 e2.2, a2b_step2 _ _ e3.1 e3.2,
      a2b_pad3_0]
    have o1 : b1 / 4 * 4 + ((b1 % 4) * 16 + b2 / 16) / 16 = b1 := by omega
    have o2 : ((b1 % 4) * 16 + b2 / 16) % 16 * 16 + (b2 % 16) * 4 / 4 = b2 := by omega
    rw [o1, o2]
    simp
  | case3 b1 =>
    intro out l p
    have h1 : b1 < 256 := hB b1 (by simp)
    have e1 := b64StdVal_translate_url (b1 / 4) (by omega)
    have e2 := b64StdVal_translate_url ((b1 % 4) * 16) (by omega)
    show a2b_base64 (pyTranslateChar (b64urlChar (b1 / 4)) ::
        pyTranslateChar (b64urlChar ((b1 % 4) * 16)) :: ['=', '=']) 0 l p out
      = .ok (out ++ [b1])
    rw [a2b_step0 _ _ e1.1 e1.2, a2b_step1 _ _ e2.1 e2.2, a2b_pad2_0, a2b_pad2_1]
    have o1 : b1 / 4 * 4 + (b1 % 4) * 16 / 16 = b1 := by omega
    rw [o1]
  | case4 =>
    intro out l p
    show a2b_base64 ['=', '=', '=', '='] 0 l p out = .ok (out ++ [])
    rw [a2b_pad0, a2b_pad0, a2b_pad0, a2b_pad0, a2b_nil]
    simp

lemma b64urlChar_ne_dot : ∀ v, b64urlChar v ≠ '.' := by
  intro v
  by_cases h : v < 64
  · exact (by decide : ∀ w, w < 64 → b64urlChar w ≠ '.') v h
  · unfold b64urlChar
    rw [List.getD_eq_default]
    · decide
    · rw [show ("ABCDEFGHIJKLMNOPQRSTUVWXYZabcdefghijklmnopqrstuvwxyz0123456789-_".toList).length = 64 from rfl]
      omega

lemma b64urlEncode_no_dot (B : List Nat) : '.' ∉ b64urlEncode B := by
  induction B using b64urlEncode.induct with
  | case1 b1 b2 b3 rest ih =>
    simp only [b64urlEncode, List.mem_cons]
    rintro (h | h | h | h | h)
    · exact b64urlChar_ne_dot _ h.symm
    · exact b64urlChar_ne_dot _ h.symm
    · exact b64urlChar_ne_dot _ h.symm
    · exact b64urlChar_ne_dot _ h.symm
    · exact ih h
  | case2 b1 b2 =>
    simp only [b64urlEncode, List.mem_cons, List.not_mem_nil]
    rintro (h | h | h | h)
    · exact b64urlChar_ne_dot _ h.symm
    · exact b64urlChar_ne_dot _ h.symm
    · exact b64urlChar_ne_dot _ h.symm
    · exact h
  | case3 b1 =>
    simp only [b64urlEncode, List.mem_cons, List.not_mem_nil]
    rintro (h | h | h)
    · exact b64urlChar_ne_dot _ h.symm
    · exact b64urlChar_ne_dot _ h.symm
    · exact h
  | case4 => simp [b64urlEncode]

/-- Claim C3: a three-segment token whose middle segment is valid
base64url-encoded JSON decodes to exactly that JSON value (including
segments whose length is already a multiple of four, where the code
appends four `=`), and any input with a number of dot-separated segments
different from three fails with the format error. -/
theorem claim_C3 :
    (∀ (hdr sig : List Char) (B : List Nat) (j : Json),
        (∀ b ∈ B, b < 256) → '.' ∉ hdr → '.' ∉ sig → jsonLoads B = some j →
        validate_id_token (hdr ++ '.' :: (b64urlEncode B ++ '.' :: sig)) = .ok j) ∧
    (∀ cs : List Char, (splitOnChar '.' cs).length ≠ 3 →
        validate_id_token cs = .error "Invalid ID token format") := by
  constructor
  · intro hdr sig B j hB hhdr hsig hjson
    have hmid : '.' ∉ b64urlEncode B := b64urlEncode_no_dot B
    have hsplit : splitOnChar '.' (hdr ++ '.' :: (b64urlEncode B ++ '.' :: sig))
        = [hdr, b64urlEncode B, sig] := by
      rw [splitOnChar_append '.' hdr _ hhdr, splitOnChar_append '.' _ _ hmid,
        splitOnChar_of_no_sep '.' sig hsig]
    simp only [validate_id_token, hsplit, List.length_cons, List.length_nil]
    rw [if_neg (by omega)]
    simp only [List.getD_cons_succ, List.getD_cons_zero, List.map_append, List.map_replicate,
      show pyTranslateChar '=' = '=' from rfl, pyB64decode]
    rw [a2b_encode_pad B hB [] 0 0]
    simp [hjson]
  · intro cs h
    simp only [validate_id_token]
    rw [if_pos h]

/-- Claim C3 witness: concrete instances of both halves — the token
`h.eyJhIjoxfQ.s` decodes to the object `a: 1`, and a one-segment token
is rejected with the format error. -/
theorem claim_C3_witness :
    validate_id_token (['h'] ++ '.' :: (b64urlEncode [123, 34, 97, 34, 58, 49, 125] ++ '.' :: ['s']))
        = .ok (Json.obj [([97], Json.num 1)]) ∧
    validate_id_token ['a'] = .error "Invalid ID token format" := by
  constructor
  · exact claim_C3.1 ['h'] ['s'] [123, 34, 97, 34, 58, 49, 125]
      (Json.obj [([97], Json.num 1)]) (by decide) (by decide) (by decide) (by rfl)
  · exact claim_C3.2 ['a'] (by decide)

lemma truthyParam_mem (name : String) (v : Option (List Nat))
    (p : List Nat × List Nat) (hp : p ∈ truthyParam name v) :
    ∃ s, v = some s ∧ s ≠ [] ∧ p = (strBytes name, s) := by
  match v with
  | none => simp [truthyParam] at hp
  | some s =>
    by_cases hs : s.isEmpty
    · simp [truthyParam, hs] at hp
    · simp only [truthyParam, hs, if_false, Bool.false_eq_true, List.mem_singleton] at hp
      exact ⟨s, rfl, fun he => hs (he ▸ rfl), hp⟩

lemma truthyParam_self (name : String) (s : List Nat) (hs : s ≠ []) :
    (strBytes name, s) ∈ truthyParam name (some s) := by
  have : s.isEmpty = false := by
    cases s
    · exact absurd rfl hs
    · rfl
  simp [truthyParam, this]

lemma get_auth_url_parse (pc : ProviderConfig) (cc : ClientConfig)
    (state nonce : Option (List Nat)) (path : List Char)
    (hcid : ∀ b ∈ cc.client_id, b < 256) (hruri : ∀ b ∈ cc.redirect_uri, b < 256)
    (hscope : ∀ b ∈ cc.scope, b < 256)
    (hstate : ∀ v, state = some v → ∀ b ∈ v, b < 256)
    (hnonce : ∀ v, nonce = some v → ∀ b ∈ v, b < 256)
    (hq : '?' ∉ pc.issuer ++ path) :
    parseQS (queryOf (get_auth_url pc cc state nonce path)) =
      [(strBytes "client_id", cc.client_id), (strBytes "redirect_uri", cc.redirect_uri),
       (strBytes "response_type", strBytes "code"), (strBytes "scope", cc.scope)]
      ++ truthyParam "state" state ++ truthyParam "nonce" nonce := by
  have hquery : queryOf (get_auth_url pc cc state nonce path)
      = urlencode ([(strBytes "client_id", cc.client_id), (strBytes "redirect_uri", cc.redirect_uri),
          (strBytes "response_type", strBytes "code"), (strBytes "scope", cc.scope)]
        ++ truthyParam "state" state ++ truthyParam "nonce" nonce) := by
    simp only [get_auth_url, queryOf]
    rw [splitFirstChar_append '?' _ _ hq]
  rw [hquery]
  apply parseQS_urlencode
  intro p hp
  rcases List.mem_append.mp hp with hp | hp
  · rcases List.mem_append.mp hp with hp | hp
    · rcases List.mem_cons.mp hp with rfl | hp
      · exact ⟨(by decide : ∀ b ∈ strBytes "client_id", b < 256), hcid⟩
      rcases List.mem_cons.mp hp with rfl | hp
      · exact ⟨(by decide : ∀ b ∈ strBytes "redirect_uri", b < 256), hruri⟩
      rcases List.mem_cons.mp hp with rfl | hp
      · exact ⟨(by decide : ∀ b ∈ strBytes "response_type", b < 256),
          (by decide : ∀ b ∈ strBytes "code", b < 256)⟩
      rcases List.mem_cons.mp hp with rfl | hp
      · exact ⟨(by decide : ∀ b ∈ strBytes "scope", b < 256), hscope⟩
      · exact absurd hp (List.not_mem_nil p)
    · obtain ⟨s, hsome, _, rfl⟩ := truthyParam_mem _ _ _ hp
      exact ⟨(by decide : ∀ b ∈ strBytes "state", b < 256), hstate s hsome⟩
  · obtain ⟨s, hsome, _, rfl⟩ := truthyParam_mem _ _ _ hp
    exact ⟨(by decide : ∀ b ∈ strBytes "nonce", b < 256), hnonce s hsome⟩

/-- Claim C4 (amended): parsing the query string of `get_auth_url`
always yields back exactly `client_id`, `redirect_uri`,
`response_type=code` and `scope` as set at construction, and contains a
`state` (resp. `nonce`) parameter iff the caller supplied a *non-empty*
one — a supplied empty string is dropped by the `if state:` truthiness
test. -/
theorem claim_C4_amended (pc : ProviderConfig) (cc : ClientConfig)
    (state nonce : Option (List Nat)) (path : List Char)
    (hcid : ∀ b ∈ cc.client_id, b < 256) (hruri : ∀ b ∈ cc.redirect_uri, b < 256)
    (hscope : ∀ b ∈ cc.scope, b < 256)
    (hstate : ∀ v, state = some v → ∀ b ∈ v, b < 256)
    (hnonce : ∀ v, nonce = some v → ∀ b ∈ v, b < 256)
    (hq : '?' ∉ pc.issuer ++ path) :
    parseQS (queryOf (get_auth_url pc cc state nonce path)) =
      [(strBytes "client_id", cc.client_id), (strBytes "redirect_uri", cc.redirect_uri),
       (strBytes "response_type", strBytes "code"), (strBytes "scope", cc.scope)]
      ++ truthyParam "state" state ++ truthyParam "nonce" nonce ∧
    ((∃ p ∈ parseQS (queryOf (get_auth_url pc cc state nonce path)),
        p.1 = strBytes "state") ↔ ∃ v, state = some v ∧ v ≠ []) ∧
    ((∃ p ∈ parseQS (queryOf (get_auth_url pc cc state nonce path)),
        p.1 = strBytes "nonce") ↔ ∃ v, nonce = some v ∧ v ≠ []) := by
  have heq := get_auth_url_parse pc cc state nonce path hcid hruri hscope hstate hnonce hq
  refine ⟨heq, ?_, ?_⟩
  · rw [heq]
    constructor
    · rintro ⟨p, hp, hkey⟩
      rcases List.mem_append.mp hp with hp | hp
      · rcases List.mem_append.mp hp with hp | hp
        · rcases List.mem_cons.mp hp with rfl | hp
          · exact absurd hkey (by decide : ¬ strBytes "client_id" = strBytes "state")
          rcases List.mem_cons.mp hp with rfl | hp
          · exact absurd hkey (by decide : ¬ strBytes "redirect_uri" = strBytes "state")
          rcases List.mem_cons.mp hp with rfl | hp
          · exact absurd hkey (by decide : ¬ strBytes "response_type" = strBytes "state")
          rcases List.mem_cons.mp hp with rfl | hp
          · exact absurd hkey (by decide : ¬ strBytes "scope" = strBytes "state")
          · exact absurd hp (List.not_mem_nil p)
        · obtain ⟨s, hsome, hne, rfl⟩ := truthyParam_mem _ _ _ hp
          exact ⟨s, hsome, hne⟩
      · obtain ⟨s, _, _, rfl⟩ := truthyParam_mem _ _ _ hp
        exact absurd hkey (by decide : ¬ strBytes "nonce" = strBytes "state")
    · rintro ⟨v, rfl, hne⟩
      exact ⟨(strBytes "state", v),
        List.mem_append.mpr (Or.inl (List.mem_append.mpr (Or.inr (truthyParam_self _ v hne)))),
        rfl⟩
  · rw [heq]
    constructor
    · rintro ⟨p, hp, hkey⟩
      rcases List.mem_append.mp hp with hp | hp
      · rcases List.mem_append.mp hp with hp | hp
        · rcases List.mem_cons.mp hp with rfl | hp
          · exact absurd hkey (by decide : ¬ strBytes "client_id" = strBytes "nonce")
          rcases List.mem_cons.mp hp with rfl | hp
          · exact absurd hkey (by decide : ¬ strBytes "redirect_uri" = strBytes "nonce")
          rcases List.mem_cons.mp hp with rfl | hp
          · exact absurd hkey (by decide : ¬ strBytes "response_type" = strBytes "nonce")
          rcases List.mem_cons.mp hp with rfl | hp
          · exact absurd hkey (by decide : ¬ strBytes "scope" = strBytes "nonce")
          · exact absurd hp (List.not_mem_nil p)
        · obtain ⟨s, _, _, rfl⟩ := truthyParam_mem _ _ _ hp
          exact absurd hkey (by decide : ¬ strBytes "state" = strBytes "nonce")
      · obtain ⟨s, hsome, hne, rfl⟩ := truthyParam_mem _ _ _ hp
        exact ⟨s, hsome, hne⟩
    · rintro ⟨v, rfl, hne⟩
      exact ⟨(strBytes "nonce", v),
        List.mem_append.mpr (Or.inr (truthyParam_self _ v hne)), rfl⟩

/-- Claim C4 witness: the amended round trip at a concrete configuration
with a non-empty `state` and no `nonce`. -/
theorem claim_C4_amended_witness :
    (parseQS (queryOf (get_auth_url ⟨"https://idp.example".toList, none⟩
        ⟨strBytes "abc", strBytes "https://app/callback", strBytes "openid profile email"⟩
        (some [115]) none "/authorize".toList)) =
      [(strBytes "client_id", strBytes "abc"),
       (strBytes "redirect_uri", strBytes "https://app/callback"),
       (strBytes "response_type", strBytes "code"),
       (strBytes "scope", strBytes "openid profile email")]
      ++ truthyParam "state" (some [115]) ++ truthyParam "nonce" none) ∧
    ((∃ p ∈ parseQS (queryOf (get_auth_url ⟨"https://idp.example".toList, none⟩
        ⟨strBytes "abc", strBytes "https://app/callback", strBytes "openid profile email"⟩
        (some [115]) none "/authorize".toList)), p.1 = strBytes "state")
      ↔ ∃ v, some [115] = some v ∧ v ≠ []) ∧
    ((∃ p ∈ parseQS (queryOf (get_auth_url ⟨"https://idp.example".toList, none⟩
        ⟨strBytes "abc", strBytes "https://app/callback", strBytes "openid profile email"⟩
        (some [115]) none "/authorize".toList)), p.1 = strBytes "nonce")
      ↔ ∃ v, (none : Option (List Nat)) = some v ∧ v ≠ []) :=
  claim_C4_amended ⟨"https://idp.example".toList, none⟩
    ⟨strBytes "abc", strBytes "https://app/callback", strBytes "openid profile email"⟩
    (some [115]) none "/authorize".toList
    (by decide) (by decide) (by decide)
    (by intro v hv; cases hv; decide) (by intro v hv; cases hv) (by decide)

set_option maxRecDepth 16384 in
/-- Claim C4 counterexample: with `state` supplied as the *empty* string
the parsed query of the built URL contains no `state` parameter at all,
refuting "contains a state parameter iff the caller supplied one —
including the empty string". -/
theorem claim_C4_counterexample :
    ¬ ((∃ p ∈ parseQS (queryOf (get_auth_url ⟨"https://idp.example".toList, none⟩
          ⟨strBytes "abc", strBytes "https://app/callback", strBytes "openid profile email"⟩
          (some []) none "/authorize".toList)), p.1 = strBytes "state")
        ↔ (some ([] : List Nat)).isSome = true) := by
  decide

/-- Claim C8: with issuer `https://idp.example`, client id `abc`,
redirect URI `https://app/callback` and scope `openid profile email`,
the login URL is exactly the specified string, fixing parameter order
and the percent and plus encodings. -/
theorem claim_C8 :
    get_login_url ⟨"https://idp.example".toList, none⟩
      ⟨strBytes "abc", strBytes "https://app/callback", strBytes "openid profile email"⟩
      none none
      = "https://idp.example/authorize?client_id=abc&redirect_uri=https%3A%2F%2Fapp%2Fcallback&response_type=code&scope=openid+profile+email".toList := by
  rfl

lemma auth_callback_code_missing (code : Option (List Nat))
    (exchange : Except String TokenResponse) (userinfo : List Nat → Except String Json)
    (s : Session) (hcode : code = none ∨ code = some []) :
    auth_callback code exchange userinfo s = (.errorResponse "Authorization code missing", s) := by
  unfold auth_callback
  rw [if_pos hcode]

lemma auth_callback_exchange_error (code : Option (List Nat)) (e : String)
    (userinfo : List Nat → Except String Json) (s : Session)
    (hcode : ¬(code = none ∨ code = some [])) :
    auth_callback code (.error e) userinfo s
      = (.errorResponse ("Authentication error: " ++ e), s) := by
  unfold auth_callback
  rw [if_neg hcode]

lemma auth_callback_no_token (code : Option (List Nat)) (t : TokenResponse)
    (userinfo : List Nat → Except String Json) (s : Session)
    (hcode : ¬(code = none ∨ code = some [])) (hta : t.access_token = none) :
    auth_callback code (.ok t) userinfo s = (.errorResponse "Authentication error: KeyError", s) := by
  simp [auth_callback, hcode, hta]

lemma auth_callback_userinfo_error (code : Option (List Nat)) (t : TokenResponse)
    (a : List Nat) (e : String) (userinfo : List Nat → Except String Json) (s : Session)
    (hcode : ¬(code = none ∨ code = some [])) (hta : t.access_token = some a)
    (hui : userinfo a = .error e) :
    auth_callback code (.ok t) userinfo s
      = (.errorResponse ("Authentication error: " ++ e), s) := by
  simp [auth_callback, hcode, hta, hui]

lemma auth_callback_success_eq (code : Option (List Nat)) (t : TokenResponse)
    (a : List Nat) (ui : Json) (userinfo : List Nat → Except String Json) (s : Session)
    (hcode : ¬(code = none ∨ code = some [])) (hta : t.access_token = some a)
    (hui : userinfo a = .ok ui) :
    auth_callback code (.ok t) userinfo s
      = (.redirect (s.return_to.getD ['/']),
         { auth := some { access_token := some a, id_token := t.id_token,
                          refresh_token := t.refresh_token, expires_in := t.expires_in,
                          user_info := some ui },
           return_to := none }) := by
  simp [auth_callback, hcode, hta, hui]

lemma auth_callback_failure (code : Option (List Nat))
    (exchange : Except String TokenResponse) (userinfo : List Nat → Except String Json)
    (s : Session)
    (h : (code = none ∨ code = some []) ∨ (∃ e, exchange = .error e) ∨
         (∃ t, exchange = .ok t ∧ t.access_token = none) ∨
         (∃ t a e, exchange = .ok t ∧ t.access_token = some a ∧ userinfo a = .error e)) :
    (auth_callback code exchange userinfo s).2 = s ∧
    ∃ m, (auth_callback code exchange userinfo s).1 = .errorResponse m := by
  by_cases hcode : code = none ∨ code = some []
  · rw [auth_callback_code_missing code exchange userinfo s hcode]
    exact ⟨rfl, _, rfl⟩
  · rcases h with h | ⟨e, rfl⟩ | ⟨t, rfl, hta⟩ | ⟨t, a, e, rfl, hta, hui⟩
    · exact absurd h hcode
    · rw [auth_callback_exchange_error code e userinfo s hcode]
      exact ⟨rfl, _, rfl⟩
    · rw [auth_callback_no_token code t userinfo s hcode hta]
      exact ⟨rfl, _, rfl⟩
    · rw [auth_callback_userinfo_error code t a e userinfo s hcode hta hui]
      exact ⟨rfl, _, rfl⟩

/-- Claim C1 counterexample: a session whose record carries `userInfo`
and an access_token key holding the *empty* string reads as
authenticated (`is_authenticated = true`), refuting "isAuthenticated iff
the record contains a non-empty accessToken / empty must read as
Anonymous" — the code tests key presence only. -/
theorem claim_C1_counterexample :
    ¬ (∀ s : Session, is_authenticated s = true ↔
        (∃ r, s.auth = some r ∧ ∃ a, r.access_token = some a ∧ a ≠ [])) := by
  intro h
  have h2 := (h ⟨some ⟨some [], none, none, none, some (Json.obj [])⟩, none⟩).mp rfl
  obtain ⟨r, hr, a, ha, hne⟩ := h2
  injection hr with hr
  subst hr
  have ha2 : some ([] : List Nat) = some a := ha
  injection ha2 with ha2
  exact hne ha2.symm

/-- Claim C1 (amended): `is_authenticated` is true iff an auth record
exists in the session and it contains the `access_token` key — whether
or not the stored token is empty; a record with `userInfo` but no
`access_token` key still reads as Anonymous. -/
theorem claim_C1_amended (s : Session) :
    is_authenticated s = true ↔ ∃ r, s.auth = some r ∧ ∃ a, r.access_token = some a := by
  cases s with
  | mk auth rt =>
    cases auth with
    | none => simp [is_authenticated]
    | some r =>
      cases hr : r.access_token with
      | none => simp [is_authenticated, hr]
      | some a => simp [is_authenticated, hr]

/-- Claim C2 (code bug), evaluated at a concrete Anonymous session with
current URL `/secret`: the Flask decorator does block the protected
handler — exactly one 302 redirect to the login view, with the current
URL stored in `return_to` — but the FastAPI dependency merely *returns*
its `RedirectResponse` (it never raises), and since FastAPI
short-circuits a route only on a raised exception, the guarded route
still reaches the protected handler; the claim's "never lets control
reach the protected handler" fails for the FastAPI dependency form. -/
theorem claim_C2_code_bug :
    (flask_login_required "/login".toList "/secret".toList ⟨none, none⟩).1
        = .redirect "/login".toList 302 ∧
    (flask_login_required "/login".toList "/secret".toList ⟨none, none⟩).2.return_to
        = some "/secret".toList ∧
    is_authenticated ⟨none, none⟩ = false ∧
    (fastapi_login_required "/secret".toList ⟨none, none⟩).1
        = .redirectValue "/login".toList 307 ∧
    (fastapi_login_required "/secret".toList ⟨none, none⟩).2.return_to
        = some "/secret".toList ∧
    (fastapi_guarded_route "/secret".toList ⟨none, none⟩).1 = .handler :=
  ⟨rfl, rfl, rfl, rfl, rfl, rfl⟩

/-- Claim C5: if the code→token exchange fails, or the token response
has no `access_token` key, or the userinfo fetch fails, the session is
left unchanged and an authentication error is surfaced; and a session
auth record is never persisted without an access token. -/
theorem claim_C5 :
    (∀ (code : Option (List Nat)) (exchange : Except String TokenResponse)
        (userinfo : List Nat → Except String Json) (s : Session),
      ((∃ e, exchange = .error e) ∨
       (∃ t, exchange = .ok t ∧ t.access_token = none) ∨
       (∃ t a e, exchange = .ok t ∧ t.access_token = some a ∧ userinfo a = .error e)) →
      (auth_callback code exchange userinfo s).2 = s ∧
      ∃ m, (auth_callback code exchange userinfo s).1 = .errorResponse m) ∧
    (∀ (code : Option (List Nat)) (exchange : Except String TokenResponse)
        (userinfo : List Nat → Except String Json) (s : Session) (r : AuthRecord),
      (auth_callback code exchange userinfo s).2.auth = some r →
      s.auth = some r ∨ ∃ a, r.access_token = some a) := by
  constructor
  · intro code exchange userinfo s h
    exact auth_callback_failure code exchange userinfo s (Or.inr h)
  · intro code exchange userinfo s r h
    by_cases hcode : code = none ∨ code = some []
    · rw [auth_callback_code_missing code exchange userinfo s hcode] at h
      exact Or.inl h
    · cases exchange with
      | error e =>
        rw [auth_callback_exchange_error code e userinfo s hcode] at h
        exact Or.inl h
      | ok tokens =>
        cases hta : tokens.access_token with
        | none =>
          rw [auth_callback_no_token code tokens userinfo s hcode hta] at h
          exact Or.inl h
        | some a =>
          cases hui : userinfo a with
          | error e =>
            rw [auth_callback_userinfo_error code tokens a e userinfo s hcode hta hui] at h
            exact Or.inl h
          | ok ui =>
            rw [auth_callback_success_eq code tokens a ui userinfo s hcode hta hui] at h
            injection h with h
            subst h
            exact Or.inr ⟨a, rfl⟩

/-- Claim C5 witness: a failing exchange leaves a concrete session
untouched, and the persisted-record property at a concrete successful
run. -/
theorem claim_C5_witness :
    ((auth_callback (some [99]) (.error "boom") (fun _ => .ok Json.null)
        ⟨none, some ['/']⟩).2 = ⟨none, some ['/']⟩ ∧
      ∃ m, (auth_callback (some [99]) (.error "boom") (fun _ => .ok Json.null)
        ⟨none, some ['/']⟩).1 = .errorResponse m) ∧
    ((⟨none, some ['/']⟩ : Session).auth = some ⟨some [116], none, none, none, some Json.null⟩ ∨
      ∃ a, (⟨some [116], none, none, none, some Json.null⟩ : AuthRecord).access_token = some a) :=
  ⟨claim_C5.1 (some [99]) (.error "boom") (fun _ => .ok Json.null) ⟨none, some ['/']⟩
      (Or.inl ⟨"boom", rfl⟩),
    claim_C5.2 (some [99]) (.ok ⟨some [116], none, none, none⟩) (fun _ => .ok Json.null)
      ⟨none, some ['/']⟩ ⟨some [116], none, none, none, some Json.null⟩ rfl⟩

/-- Claim C6: `is_authenticated` is true immediately after a callback
whose token response contained `access_token`; it is false after logout
regardless of prior state; and when `end_session_endpoint` is absent
logout raises the fatal configuration error but the record has already
been removed — the Authenticated→Anonymous transition still occurs. -/
theorem claim_C6 :
    (∀ (code : Option (List Nat)) (exchange : Except String TokenResponse)
        (userinfo : List Nat → Except String Json) (s : Session)
        (t : TokenResponse) (a : List Nat) (ui : Json),
      ¬(code = none ∨ code = some []) → exchange = .ok t → t.access_token = some a →
      userinfo a = .ok ui →
      is_authenticated (auth_callback code exchange userinfo s).2 = true) ∧
    (∀ (pc : ProviderConfig) (indexUrl rt : List Nat) (s : Session),
      is_authenticated (flask_logout pc indexUrl rt s).2 = false ∧
      (flask_logout pc indexUrl rt s).2.auth = none) ∧
    (∀ (pc : ProviderConfig) (indexUrl rt : List Nat) (s : Session),
      pc.end_session_endpoint = none →
      (flask_logout pc indexUrl rt s).1 = .error "Logout endpoint not found in OIDC configuration" ∧
      (flask_logout pc indexUrl rt s).2.auth = none) := by
  refine ⟨?_, ?_, ?_⟩
  · intro code exchange userinfo s t a ui hcode hex hta hui
    subst hex
    rw [auth_callback_success_eq code t a ui userinfo s hcode hta hui]
    rfl
  · intro pc indexUrl rt s
    exact ⟨rfl, rfl⟩
  · intro pc indexUrl rt s hend
    constructor
    · simp [flask_logout, get_logout_url, hend]
    · rfl

/-- Claim C6 witness: concrete instances — a successful callback yields
an authenticated session; logout always clears; logout with no
end-session endpoint errors yet still clears. -/
theorem claim_C6_witness :
    is_authenticated (auth_callback (some [99]) (.ok ⟨some [116], none, none, none⟩)
        (fun _ => .ok Json.null) ⟨none, none⟩).2 = true ∧
    (is_authenticated (flask_logout ⟨"https://idp".toList, some "https://idp/logout".toList⟩
        (strBytes "https://app/") (strBytes "/")
        ⟨some ⟨some [116], none, none, none, none⟩, none⟩).2 = false ∧
      (flask_logout ⟨"https://idp".toList, some "https://idp/logout".toList⟩
        (strBytes "https://app/") (strBytes "/")
        ⟨some ⟨some [116], none, none, none, none⟩, none⟩).2.auth = none) ∧
    ((flask_logout ⟨"https://idp".toList, none⟩ (strBytes "https://app/") (strBytes "/")
        ⟨some ⟨some [116], none, none, none, none⟩, none⟩).1
        = .error "Logout endpoint not found in OIDC configuration" ∧
      (flask_logout ⟨"https://idp".toList, none⟩ (strBytes "https://app/") (strBytes "/")
        ⟨some ⟨some [116], none, none, none, none⟩, none⟩).2.auth = none) :=
  ⟨claim_C6.1 (some [99]) (.ok ⟨some [116], none, none, none⟩) (fun _ => .ok Json.null)
      ⟨none, none⟩ ⟨some [116], none, none, none⟩ [116] Json.null (by simp) rfl rfl rfl,
    claim_C6.2.1 ⟨"https://idp".toList, some "https://idp/logout".toList⟩
      (strBytes "https://app/") (strBytes "/") ⟨some ⟨some [116], none, none, none, none⟩, none⟩,
    claim_C6.2.2 ⟨"https://idp".toList, none⟩ (strBytes "https://app/") (strBytes "/")
      ⟨some ⟨some [116], none, none, none, none⟩, none⟩ rfl⟩

/-- Claim C7: logout on a session with no pending auth record, against a
configuration that has `end_session_endpoint`, does not fail — it
returns a well-formed end-session URL whose query string contains no
`id_token_hint` parameter. -/
theorem claim_C7 (pc : ProviderConfig) (ep : List Char) (indexUrl rt : List Nat) (s : Session)
    (hep : pc.end_session_endpoint = some ep) (hq : '?' ∉ ep)
    (hidx : ∀ b ∈ indexUrl, b < 256) (hrt : ∀ b ∈ rt, b < 256)
    (hs : s.auth = none) :
    ∃ url, (flask_logout pc indexUrl rt s).1 = .ok url ∧
      ∀ p ∈ parseQS (queryOf url), p.1 ≠ strBytes "id_token_hint" := by
  have hpostb : ∀ b ∈ (if rt = strBytes "/" then indexUrl else rt), b < 256 := by
    by_cases hc : rt = strBytes "/"
    · simpa [hc] using hidx
    · simpa [hc] using hrt
  by_cases hpe : (if rt = strBytes "/" then indexUrl else rt).isEmpty = true
  · refine ⟨ep, ?_, ?_⟩
    · simp [flask_logout, hs, get_logout_url, hep, truthyParam, hpe]
    · rw [queryOf, splitFirstChar_of_no_sep '?' ep hq]
      intro p hp
      simp [parseQS, splitOnChar] at hp
  · refine ⟨ep ++ '?' :: urlencode [(strBytes "post_logout_redirect_uri",
        if rt = strBytes "/" then indexUrl else rt)], ?_, ?_⟩
    · simp [flask_logout, hs, get_logout_url, hep, truthyParam, hpe]
    · rw [queryOf, splitFirstChar_append '?' ep _ hq]
      rw [parseQS_urlencode _ (by
        intro p hp
        rcases List.mem_cons.mp hp with rfl | hp
        · exact ⟨(by decide : ∀ b ∈ strBytes "post_logout_redirect_uri", b < 256), hpostb⟩
        · exact absurd hp (List.not_mem_nil p))]
      intro p hp
      rcases List.mem_cons.mp hp with rfl | hp
      · exact (by decide : ¬ strBytes "post_logout_redirect_uri" = strBytes "id_token_hint")
      · exact absurd hp (List.not_mem_nil p)

/-- Claim C7 witness: logout of an empty session against a provider with
an end-session endpoint. -/
theorem claim_C7_witness :
    ∃ url, (flask_logout ⟨"https://idp".toList, some "https://idp/logout".toList⟩
        (strBytes "https://app/") (strBytes "/") ⟨none, none⟩).1 = .ok url ∧
      ∀ p ∈ parseQS (queryOf url), p.1 ≠ strBytes "id_token_hint" :=
  claim_C7 ⟨"https://idp".toList, some "https://idp/logout".toList⟩ "https://idp/logout".toList
    (strBytes "https://app/") (strBytes "/") ⟨none, none⟩ rfl (by decide) (by decide) (by decide) rfl

/-- Claim C9 (amended): discovery consumes a single transport result and
treats a transport failure, any 4xx/5xx status (what `raise_for_status`
raises for), or an unparseable body as a fatal discovery error; on other
statuses with a JSON body the parsed document becomes the provider
configuration. -/
theorem claim_C9_amended :
    (∀ e : String, ∃ m, fetch_config (.error e) = .error m) ∧
    (∀ r : HttpResponse, 400 ≤ r.status → r.status < 600 →
      ∃ m, fetch_config (.ok r) = .error m) ∧
    (∀ (r : HttpResponse) (j : Json), ¬(400 ≤ r.status ∧ r.status < 600) →
      jsonLoads r.body = some j → fetch_config (.ok r) = .ok j) ∧
    (∀ r : HttpResponse, ¬(400 ≤ r.status ∧ r.status < 600) → jsonLoads r.body = none →
      ∃ m, fetch_config (.ok r) = .error m) := by
  refine ⟨?_, ?_, ?_, ?_⟩
  · intro e
    exact ⟨_, rfl⟩
  · intro r h4 h6
    refine ⟨"Failed to fetch OIDC configuration: HTTPError", ?_⟩
    simp [fetch_config, h4, h6]
  · intro r j hst hj
    simp [fetch_config, hst, hj]
  · intro r hst hj
    refine ⟨"Failed to fetch OIDC configuration: JSONDecodeError", ?_⟩
    simp [fetch_config, hst, hj]

/-- Claim C9 witness: concrete transport failure, a 404, a JSON 200, and
a 200 with an unparseable body. -/
theorem claim_C9_amended_witness :
    (∃ m, fetch_config (.error "timeout") = .error m) ∧
    (∃ m, fetch_config (.ok ⟨404, []⟩) = .error m) ∧
    fetch_config (.ok ⟨200, [123, 125]⟩) = .ok (Json.obj []) ∧
    (∃ m, fetch_config (.ok ⟨200, [120]⟩) = .error m) :=
  ⟨claim_C9_amended.1 "timeout",
    claim_C9_amended.2.1 ⟨404, []⟩ (by decide) (by decide),
    claim_C9_amended.2.2.1 ⟨200, [123, 125]⟩ (Json.obj []) (by decide) rfl,
    claim_C9_amended.2.2.2 ⟨200, [120]⟩ (by decide) rfl⟩

/-- Claim C9 counterexample: a 304 response (non-2xx) with a JSON body
is *not* rejected — `raise_for_status` raises only for 4xx/5xx, so the
parsed body is stored, refuting "for every response with a non-2xx
status ... it fails with a DiscoveryError". -/
theorem claim_C9_counterexample :
    ¬ (∀ r : HttpResponse, ¬(200 ≤ r.status ∧ r.status < 300) →
        ∃ m, fetch_config (.ok r) = .error m) := by
  intro h
  obtain ⟨m, hm⟩ := h ⟨304, [123, 125]⟩ (by decide)
  rw [show fetch_config (.ok ⟨304, [123, 125]⟩) = .ok (Json.obj []) from rfl] at hm
  exact Except.noConfusion hm

/-- Claim C10: on any failing callback (missing code, exchange error,
missing `access_token`, or userinfo error) the transient `return_to`
slot is left unchanged — it is popped only on the success path after the
record write — so a later successful callback still redirects to the
originally stored target. -/
theorem claim_C10 :
    ∀ (code : Option (List Nat)) (exchange : Except String TokenResponse)
      (userinfo : List Nat → Except String Json) (s : Session),
      ((code = none ∨ code = some []) ∨ (∃ e, exchange = .error e) ∨
       (∃ t, exchange = .ok t ∧ t.access_token = none) ∨
       (∃ t a e, exchange = .ok t ∧ t.access_token = some a ∧ userinfo a = .error e)) →
      (auth_callback code exchange userinfo s).2.return_to = s.return_to ∧
      (∀ (code2 : Option (List Nat)) (exchange2 : Except String TokenResponse)
         (userinfo2 : List Nat → Except String Json) (t2 : TokenResponse)
         (a2 : List Nat) (ui2 : Json),
        ¬(code2 = none ∨ code2 = some []) → exchange2 = .ok t2 →
        t2.access_token = some a2 → userinfo2 a2 = .ok ui2 →
        (auth_callback code2 exchange2 userinfo2
            (auth_callback code exchange userinfo s).2).1
          = .redirect (s.return_to.getD ['/'])) := by
  intro code exchange userinfo s h
  have hfail := auth_callback_failure code exchange userinfo s h
  constructor
  · rw [hfail.1]
  · intro code2 exchange2 userinfo2 t2 a2 ui2 hcode2 hex2 hta2 hui2
    subst hex2
    rw [hfail.1, auth_callback_success_eq code2 t2 a2 ui2 userinfo2 s hcode2 hta2 hui2]

/-- Claim C10 witness: a failing then a succeeding callback on a session
with `/dashboard` pending as return target. -/
theorem claim_C10_witness :
    (auth_callback (some [99]) (.error "boom") (fun _ => .ok Json.null)
        ⟨none, some "/dashboard".toList⟩).2.return_to = some "/dashboard".toList ∧
    (∀ (code2 : Option (List Nat)) (exchange2 : Except String TokenResponse)
       (userinfo2 : List Nat → Except String Json) (t2 : TokenResponse)
       (a2 : List Nat) (ui2 : Json),
      ¬(code2 = none ∨ code2 = some []) → exchange2 = .ok t2 →
      t2.access_token = some a2 → userinfo2 a2 = .ok ui2 →
      (auth_callback code2 exchange2 userinfo2
          (auth_callback (some [99]) (.error "boom") (fun _ => .ok Json.null)
            ⟨none, some "/dashboard".toList⟩).2).1
        = .redirect ((some "/dashboard".toList).getD ['/'])) :=
  claim_C10 (some [99]) (.error "boom") (fun _ => .ok Json.null)
    ⟨none, some "/dashboard".toList⟩ (Or.inr (Or.inl ⟨"boom", rfl⟩))

/-- Claim C1 witness: the amended equivalence at a concrete session
holding a record with an access_token key. -/
theorem claim_C1_amended_witness :
    is_authenticated ⟨some ⟨some [116], none, none, none, none⟩, none⟩ = true ↔
      ∃ r, (⟨some ⟨some [116], none, none, none, none⟩, none⟩ : Session).auth = some r ∧
        ∃ a, r.access_token = some a :=
  claim_C1_amended ⟨some ⟨some [116], none, none, none, none⟩, none⟩
